import Mathlib

/-!
Verification development for the weex-ai-quant-trader position-lifecycle
engine.  The definitions below are shallow embeddings of the Python source
(`src/bot/run2.py`, `src/bot/real.py`, `src/bot/state_persistence.py`):
monetary amounts, prices and sizes are modelled as exact rationals, calendar
days and timestamps as integers, and the JSON snapshot as a Lean structure
holding exactly the keys the code serializes.
-/

namespace Weex

/-- One open trade, as built by the entry block of `run2.py` (lines 296-303).
`entry_time` and `target_exit_time` are UTC timestamps modelled in minutes. -/
structure Trade where
  direction : ℤ
  entry_price : ℚ
  size : ℚ
  margin_used : ℚ
  entry_time : ℤ
  target_exit_time : ℤ
deriving DecidableEq, Repr

/-- Per-symbol state at the persistence layer: exactly the keys that
`state_persistence.save_state` writes for each symbol (lines 28-36) and that
`initialize_state` creates (lines 115-123).  `current_day` is a calendar day
modelled as an integer; `last_candle_time` is an optional timestamp. -/
structure SymbolState where
  equity : ℚ
  day_start_equity : ℚ
  daily_pnl : ℚ
  current_day : ℤ
  trading_enabled : Bool
  open_trades : List Trade
  last_candle_time : Option ℤ
deriving DecidableEq, Repr

/-- Portfolio state at the persistence layer: exactly the keys that
`save_state` writes for the portfolio (lines 38-44). -/
structure PortfolioState where
  equity : ℚ
  day_start_equity : ℚ
  daily_pnl : ℚ
  trading_enabled : Bool
  current_day : ℤ
deriving DecidableEq, Repr

/-- In-memory per-symbol state of `run2.py`: the persisted keys plus the
margin-tracking keys that `main` adds at lines 148-150. -/
structure SymbolMem where
  equity : ℚ
  day_start_equity : ℚ
  daily_pnl : ℚ
  current_day : ℤ
  trading_enabled : Bool
  open_trades : List Trade
  last_candle_time : Option ℤ
  margin_used : ℚ
  available_margin : ℚ
deriving DecidableEq, Repr

/-- In-memory portfolio of `run2.py`: the persisted keys plus the margin keys
added at lines 152-154. -/
structure PortfolioMem where
  equity : ℚ
  day_start_equity : ℚ
  daily_pnl : ℚ
  trading_enabled : Bool
  current_day : ℤ
  margin_used : ℚ
  available_margin : ℚ
  peak_equity : ℚ
deriving DecidableEq, Repr

/-! ## Persistence layer (`src/bot/state_persistence.py`)

The JSON round trip of the serialized values themselves is lossless in
Python (floats via repr, datetimes and dates via `isoformat`), so the
document is modelled as a structure holding exactly the serialized keys. -/

/-- The projection of an in-memory symbol dict onto the keys that
`save_state` serializes (lines 28-36).  The margin-tracking keys
`margin_used` and `available_margin` are not among them. -/
def saveSymbol (s : SymbolMem) : SymbolState :=
  { equity := s.equity
    day_start_equity := s.day_start_equity
    daily_pnl := s.daily_pnl
    current_day := s.current_day
    trading_enabled := s.trading_enabled
    open_trades := s.open_trades
    last_candle_time := s.last_candle_time }

/-- The projection of the in-memory portfolio onto the keys that
`save_state` serializes (lines 38-44): no `margin_used`, no
`available_margin`, no `peak_equity`. -/
def savePortfolio (p : PortfolioMem) : PortfolioState :=
  { equity := p.equity
    day_start_equity := p.day_start_equity
    daily_pnl := p.daily_pnl
    trading_enabled := p.trading_enabled
    current_day := p.current_day }

/-- The snapshot document written by `save_state` (lines 46-50): the map from
symbol to serialized symbol state, the serialized portfolio, and a save
timestamp. -/
structure SavedDoc where
  state : List (String × SymbolState)
  portfolio : PortfolioState
  saved_at : ℤ
deriving DecidableEq, Repr

/-- `save_state` (lines 14-56): serialize every symbol's dict and the
portfolio dict into the snapshot document. -/
def save_state (state : List (String × SymbolMem)) (portfolio : PortfolioMem)
    (now : ℤ) : SavedDoc :=
  { state := state.map (fun kv => (kv.1, saveSymbol kv.2))
    portfolio := savePortfolio portfolio
    saved_at := now }

/-- What the snapshot slot can hold at startup: no file, a file that JSON
parsing or deserialization raises on, or a well-formed snapshot. -/
inductive SnapshotFile
  | absent
  | corrupt
  | valid (doc : SavedDoc)
deriving DecidableEq, Repr

/-- `load_state` (lines 64-108): missing file returns `None` (line 66-68);
any exception while reading or deserializing is caught and returns `None`
(lines 106-108); otherwise the parsed document is returned. -/
def load_state : SnapshotFile → Option SavedDoc
  | .absent => none
  | .corrupt => none
  | .valid doc => some doc

/-- `initialize_state` (lines 111-134): fresh per-symbol state at the
configured initial capital, and a fresh portfolio at
`initial_capital * len(symbols)`. -/
def initState (symbols : List String) (initial_capital : ℚ) (today : ℤ) :
    List (String × SymbolState) × PortfolioState :=
  (symbols.map (fun sym =>
      (sym,
       { equity := initial_capital
         day_start_equity := initial_capital
         daily_pnl := 0
         current_day := today
         trading_enabled := true
         open_trades := []
         last_candle_time := none })),
   { equity := initial_capital * symbols.length
     day_start_equity := initial_capital * symbols.length
     daily_pnl := 0
     trading_enabled := true
     current_day := today })

/-- The lazy rollover that `setup_state` applies when the saved portfolio day
differs from today (lines 159-178): reset daily metrics, keep equity and
open trades. -/
def setupRollover (today : ℤ) (doc : SavedDoc) :
    List (String × SymbolState) × PortfolioState :=
  (doc.state.map (fun kv =>
      (kv.1,
       { kv.2 with
           daily_pnl := 0
           day_start_equity := kv.2.equity
           current_day := today
           trading_enabled := true })),
   { doc.portfolio with
       daily_pnl := 0
       day_start_equity := doc.portfolio.equity
       current_day := today
       trading_enabled := true })

/-- `setup_state` (lines 137-183): load the previous snapshot; resume
verbatim on the same calendar day, apply the lazy rollover on a later day,
and fall back to `initialize_state` when `load_state` returned `None`. -/
def setup_state (symbols : List String) (initial_capital : ℚ) (today : ℤ)
    (file : SnapshotFile) : List (String × SymbolState) × PortfolioState :=
  match load_state file with
  | some doc =>
      if doc.portfolio.current_day = today then (doc.state, doc.portfolio)
      else setupRollover today doc
  | none => initState symbols initial_capital today

/-- The margin re-initialization that `run2.main` performs right after
`setup_state` (lines 147-154): every symbol's `margin_used` is set to `0`
and `available_margin` to its equity, regardless of any restored open
trades. -/
def initMarginSym (s : SymbolState) : SymbolMem :=
  { equity := s.equity
    day_start_equity := s.day_start_equity
    daily_pnl := s.daily_pnl
    current_day := s.current_day
    trading_enabled := s.trading_enabled
    open_trades := s.open_trades
    last_candle_time := s.last_candle_time
    margin_used := 0
    available_margin := s.equity }

/-- The portfolio margin re-initialization of `run2.main` (lines 152-154). -/
def initMarginPortfolio (p : PortfolioState) : PortfolioMem :=
  { equity := p.equity
    day_start_equity := p.day_start_equity
    daily_pnl := p.daily_pnl
    trading_enabled := p.trading_enabled
    current_day := p.current_day
    margin_used := 0
    available_margin := p.equity
    peak_equity := p.equity }

/-- Startup restore as `run2.main` performs it (lines 145-154):
`setup_state` followed by the margin re-initialization. -/
def startupRestore (symbols : List String) (initial_capital : ℚ) (today : ℤ)
    (file : SnapshotFile) : List (String × SymbolMem) × PortfolioMem :=
  let sp := setup_state symbols initial_capital today file
  (sp.1.map (fun kv => (kv.1, initMarginSym kv.2)), initMarginPortfolio sp.2)

/-! ## `run2.py` engine configuration (lines 33-42) -/

def RISK_PER_TRADE : ℚ := 6/100
def SYMBOL_DRAWDOWN_LIMIT : ℚ := -20/100
def PORTFOLIO_DRAWDOWN_LIMIT : ℚ := -30/100
def MAX_CONCURRENT_TRADES : ℕ := 4
def LEVERAGE : ℚ := 5
def MAX_NOTIONAL_PCT : ℚ := 75/100
def MAX_MARGIN_PER_TRADE : ℚ := 15/100

/-- `round_to_step_size` (`run2.py` lines 61-65): round size down to the
nearest step increment; a zero step returns the size unchanged. -/
def round_to_step_size (size step_size : ℚ) : ℚ :=
  if step_size = 0 then size else ⌊size / step_size⌋ * step_size

/-- The realized-pnl computation of `run2.py` lines 380-381:
`log_ret = ln(exit/entry) * direction; pnl = size*entry*(exp(log_ret)-1)`.
For positive prices `exp(d*ln r) = r^d` exactly, so for the integer
directions the code uses the computation is the rational `(exit/entry)^d`;
the embedding over ℚ uses that form (theorem `run2Pnl_eq_pnlQ` below relates
it to the `exp`/`ln` form over ℝ). -/
def pnlQ (entry_price exit_price size : ℚ) (direction : ℤ) : ℚ :=
  size * entry_price * ((exit_price / entry_price) ^ direction - 1)

/-! ## `run2.py` per-symbol tick (lines 190-438)

The tick is embedded step by step in the program order of the source:
daily reset, drawdown checks, entry logic, exit logic.  Market inputs
(last price, ATR, exit price), the signal and today's date are parameters.
Events record, in program order, each admitted entry and each settled exit
so that intra-tick ordering claims can be stated. -/

/-- One observable event inside a tick. -/
inductive Ev
  | entry (t : Trade)
  | close (t : Trade)
deriving DecidableEq, Repr

/-- Daily reset for a symbol (`run2.py` lines 202-207). -/
def dailyResetSym (today : ℤ) (s : SymbolMem) : SymbolMem :=
  if today ≠ s.current_day then
    { s with
        daily_pnl := 0
        day_start_equity := s.equity
        trading_enabled := true
        current_day := today }
  else s

/-- Daily reset for the portfolio (`run2.py` lines 209-213). -/
def dailyResetPf (today : ℤ) (p : PortfolioMem) : PortfolioMem :=
  if today ≠ p.current_day then
    { p with
        daily_pnl := 0
        day_start_equity := p.equity
        trading_enabled := true
        current_day := today }
  else p

/-- Portfolio drawdown check (`run2.py` lines 216-218). -/
def ddCheckPf (p : PortfolioMem) : PortfolioMem :=
  if p.daily_pnl ≤ PORTFOLIO_DRAWDOWN_LIMIT * p.day_start_equity then
    { p with trading_enabled := false }
  else p

/-- Symbol drawdown check (`run2.py` lines 220-222). -/
def ddCheckSym (s : SymbolMem) : SymbolMem :=
  if s.daily_pnl ≤ SYMBOL_DRAWDOWN_LIMIT * s.day_start_equity then
    { s with trading_enabled := false }
  else s

/-- The market-side inputs one `run2.py` symbol iteration consumes. -/
structure TickInputs where
  today : ℤ
  now : ℤ
  should_trade : Bool
  sig_direction : ℤ
  last_price : Option ℚ
  atr : Option ℚ
  exit_price : Option ℚ
  step_size : ℚ
  min_size : ℚ
deriving DecidableEq, Repr

/-- Outcome of the entry block: updated state, events, new open-trade count,
and whether the `continue` on a sub-minimum size skipped the rest of the
symbol iteration (`run2.py` line 282). -/
structure EntryOut where
  sym : SymbolMem
  pf : PortfolioMem
  events : List Ev
  total_open : ℕ
  skipRest : Bool
deriving Repr

/-- Entry logic of `run2.py` (lines 238-331).  Python's
`if last_price and atr and atr > 0` treats `None` and `0` as falsy, hence
the `≠ 0` tests. -/
def entryStep (inp : TickInputs) (total_open : ℕ) (s : SymbolMem)
    (p : PortfolioMem) : EntryOut :=
  if inp.should_trade ∧ s.trading_enabled ∧ p.trading_enabled ∧
      total_open < MAX_CONCURRENT_TRADES then
    match inp.last_price, inp.atr with
    | some last_price, some atr =>
      if last_price ≠ 0 ∧ atr ≠ 0 ∧ 0 < atr then
        let risk_amt := s.equity * RISK_PER_TRADE
        let size_by_risk := risk_amt / atr
        let notional_by_risk := size_by_risk * last_price
        let margin_by_risk := notional_by_risk / LEVERAGE
        let max_margin_this_trade := p.equity * MAX_MARGIN_PER_TRADE
        let size :=
          if margin_by_risk > max_margin_this_trade then
            size_by_risk * (max_margin_this_trade / margin_by_risk)
          else size_by_risk
        let size := round_to_step_size size inp.step_size
        if size < inp.min_size then
          { sym := s, pf := p, events := [], total_open := total_open,
            skipRest := true }
        else
          let notional_value := size * last_price
          let margin_required := notional_value / LEVERAGE
          let portfolio_max_margin := p.equity * MAX_NOTIONAL_PCT
          if p.margin_used + margin_required ≤ portfolio_max_margin ∧
              margin_required ≤ s.available_margin then
            let trade : Trade :=
              { direction := inp.sig_direction
                entry_price := last_price
                size := size
                margin_used := margin_required
                entry_time := inp.now
                target_exit_time := inp.now + 59 }
            { sym :=
                { s with
                    open_trades := s.open_trades ++ [trade]
                    margin_used := s.margin_used + margin_required
                    available_margin := s.available_margin - margin_required }
              pf :=
                { p with
                    margin_used := p.margin_used + margin_required
                    available_margin := p.available_margin - margin_required }
              events := [Ev.entry trade]
              total_open := total_open + 1
              skipRest := false }
          else
            { sym := s, pf := p, events := [], total_open := total_open,
              skipRest := false }
      else
        { sym := s, pf := p, events := [], total_open := total_open,
          skipRest := false }
    | _, _ =>
        { sym := s, pf := p, events := [], total_open := total_open,
          skipRest := false }
  else
    { sym := s, pf := p, events := [], total_open := total_open,
      skipRest := false }

/-- Settlement of one closing trade (`run2.py` lines 379-395 and 423):
realize pnl into equities and daily pnl, update the peak, release the
trade's margin, and remove the trade (Python `list.remove` drops the first
equal element, i.e. `List.erase`). -/
def settleClose (exit_price : ℚ) (t : Trade) (s : SymbolMem)
    (p : PortfolioMem) : SymbolMem × PortfolioMem :=
  let pnl := pnlQ t.entry_price exit_price t.size t.direction
  ({ s with
       equity := s.equity + pnl
       daily_pnl := s.daily_pnl + pnl
       margin_used := s.margin_used - t.margin_used
       available_margin := s.available_margin + t.margin_used
       open_trades := s.open_trades.erase t },
   { p with
       equity := p.equity + pnl
       daily_pnl := p.daily_pnl + pnl
       peak_equity := max p.peak_equity (p.equity + pnl)
       margin_used := p.margin_used - t.margin_used
       available_margin := p.available_margin + t.margin_used })

/-- One iteration of the `run2.py` exit loop (lines 366-424): a trade whose
`target_exit_time` has not arrived, or a falsy exit price, leaves the
accumulated state unchanged (the trade stays open for the next tick);
otherwise the trade is settled and removed. -/
def exitStepOne (inp : TickInputs)
    (acc : SymbolMem × PortfolioMem × List Ev × ℕ) (t : Trade) :
    SymbolMem × PortfolioMem × List Ev × ℕ :=
  if inp.now < t.target_exit_time then acc
  else
    match inp.exit_price with
    | none => acc
    | some px =>
        if px = 0 then acc
        else
          let sp := settleClose px t acc.1 acc.2.1
          (sp.1, sp.2, acc.2.2.1 ++ [Ev.close t], acc.2.2.2 - 1)

/-- Exit logic of `run2.py` (lines 366-424): iterate over a copy of the
open-trade list, settling each due trade against the evolving state. -/
def exitStep (inp : TickInputs) (total_open : ℕ) (s : SymbolMem)
    (p : PortfolioMem) : SymbolMem × PortfolioMem × List Ev × ℕ :=
  s.open_trades.foldl (exitStepOne inp) (s, p, [], total_open)

/-- One full `run2.py` symbol iteration (lines 201-424), given the fetched
market inputs: daily reset, drawdown checks, entry logic, then exit logic —
in exactly that program order.  Returns the updated symbol and portfolio
states, the event list in program order, and the updated open-trade count. -/
def run2SymbolTick (inp : TickInputs) (total_open : ℕ) (s : SymbolMem)
    (p : PortfolioMem) : SymbolMem × PortfolioMem × List Ev × ℕ :=
  let s := dailyResetSym inp.today s
  let p := dailyResetPf inp.today p
  let p := ddCheckPf p
  let s := ddCheckSym s
  let e := entryStep inp total_open s p
  if e.skipRest then (e.sym, e.pf, e.events, e.total_open)
  else
    let (s', p', evs, n) := exitStep inp e.total_open e.sym e.pf
    (s', p', e.events ++ evs, n)

/-! ## `real.py` engine configuration (lines 25-56) -/

def STEP_SIZE : ℚ := 1/1000
def MIN_SIZE : ℚ := 1/100
def MAX_LONG_CONCURRENT_TRADES : ℕ := 2
def MAX_SHORT_CONCURRENT_TRADES : ℕ := 2

def LONG_STOP_ATR : ℚ := 8/10
def LONG_TARGET_ATR : ℚ := 2
def LONG_EARLY_FAIL_ATR : ℚ := 15/100
def LONG_EARLY_FAIL_MIN : ℚ := 119
def LONG_MAX_HOLD_MIN : ℚ := 179

def SHORT_STOP_ATR : ℚ := 4/10
def SHORT_TARGET_ATR : ℚ := 18/10
def SHORT_EARLY_FAIL_ATR : ℚ := 35/100
def SHORT_EARLY_FAIL_MIN : ℚ := 44
def SHORT_MAX_HOLD_MIN : ℚ := 119

/-! ## `real.py` Exit Policy (lines 389-421) -/

/-- The four exit triggers of `real.py`. -/
inductive ExitReason
  | STOP
  | TARGET
  | EARLY_FAIL
  | TIMEOUT
deriving DecidableEq, Repr

/-- The `if`/`elif` trigger chain of `real.py` run for one direction with its
configured multiples and windows (lines 404-412 for longs, 414-421 for
shorts share this shape with different constants). -/
def exitReasonCore (stopM targetM earlyFailM earlyFailMin maxHoldMin
    atr_move mins : ℚ) : Option ExitReason :=
  if atr_move ≤ -stopM then some .STOP
  else if atr_move ≥ targetM then some .TARGET
  else if mins ≥ earlyFailMin ∧ atr_move < earlyFailM then some .EARLY_FAIL
  else if mins ≥ maxHoldMin then some .TIMEOUT
  else none

/-- Exit-trigger evaluation of `real.py` (lines 402-421): the long chain when
`direction == 1`, otherwise the short chain. -/
def exitReason (direction : ℤ) (atr_move mins : ℚ) : Option ExitReason :=
  if direction = 1 then
    exitReasonCore LONG_STOP_ATR LONG_TARGET_ATR LONG_EARLY_FAIL_ATR
      LONG_EARLY_FAIL_MIN LONG_MAX_HOLD_MIN atr_move mins
  else
    exitReasonCore SHORT_STOP_ATR SHORT_TARGET_ATR SHORT_EARLY_FAIL_ATR
      SHORT_EARLY_FAIL_MIN SHORT_MAX_HOLD_MIN atr_move mins

/-- The STOP condition a position's state can satisfy (§4.3 trigger 1, the
first test of the chain). -/
def stopCond (direction : ℤ) (atr_move : ℚ) : Prop :=
  atr_move ≤ -(if direction = 1 then LONG_STOP_ATR else SHORT_STOP_ATR)

/-- The TARGET condition (§4.3 trigger 2). -/
def targetCond (direction : ℤ) (atr_move : ℚ) : Prop :=
  atr_move ≥ (if direction = 1 then LONG_TARGET_ATR else SHORT_TARGET_ATR)

/-- The EARLY_FAIL condition (§4.3 trigger 3). -/
def earlyFailCond (direction : ℤ) (atr_move mins : ℚ) : Prop :=
  mins ≥ (if direction = 1 then LONG_EARLY_FAIL_MIN else SHORT_EARLY_FAIL_MIN) ∧
  atr_move < (if direction = 1 then LONG_EARLY_FAIL_ATR else SHORT_EARLY_FAIL_ATR)

/-- The TIMEOUT condition (§4.3 trigger 4). -/
def timeoutCond (direction : ℤ) (mins : ℚ) : Prop :=
  mins ≥ (if direction = 1 then LONG_MAX_HOLD_MIN else SHORT_MAX_HOLD_MIN)

/-! ## `real.py` Risk Allocator (lines 130-133 and 173-196) -/

/-- Truncation of a rational toward zero, the behaviour of Python `Decimal`
floor division `//` used by `round_qty`. -/
def qtrunc (q : ℚ) : ℤ :=
  if 0 ≤ q then ⌊q⌋ else ⌈q⌉

/-- `round_qty` (`real.py` lines 130-133): `(Decimal(qty) // Decimal(step)) *
step`. -/
def round_qty (qty : ℚ) : ℚ :=
  qtrunc (qty / STEP_SIZE) * STEP_SIZE

/-- `compute_position_size` (`real.py` lines 173-196): margin-capped and
risk-based sizes, the smaller one floored to the step, rejected below the
minimum; margin recomputed from the floored size. -/
def compute_position_size (equity atr price : ℚ) : Option (ℚ × ℚ) :=
  let max_margin := equity * MAX_MARGIN_PER_TRADE
  let max_size_by_margin := max_margin * LEVERAGE / price
  let risk_amt := equity * RISK_PER_TRADE
  let size_by_risk := risk_amt / atr
  let raw_size := min size_by_risk max_size_by_margin
  let size := round_qty raw_size
  if size < MIN_SIZE then none
  else some (size, size * price / LEVERAGE)

/-- The size the Risk Allocator admits, where a rejection counts as size 0. -/
def acceptedSize (equity atr price : ℚ) : ℚ :=
  match compute_position_size equity atr price with
  | none => 0
  | some sm => sm.1

/-- The linear realized-pnl computation of `real.py` line 448:
`pnl = (exit_price - entry_price) * size * direction`. -/
def linearPnl (entry_price exit_price size : ℚ) (direction : ℤ) : ℚ :=
  (exit_price - entry_price) * size * direction

/-- The §4.3 log-return pnl formulation, as computed by `run2.py` lines
380-381: `size * entry * (exp(direction * ln(exit/entry)) - 1)`. -/
noncomputable def pnlLog (entry_price exit_price size : ℝ) (direction : ℤ) :
    ℝ :=
  size * entry_price *
    (Real.exp (direction * Real.log (exit_price / entry_price)) - 1)

/-! ## `real.py` Entry Policy and tick ordering (lines 203-248, 329-538) -/

/-- The indicator-row fields `generate_entry_signal` reads. -/
structure FeatRow where
  rsi_14 : ℚ
  vol_ratio : ℚ
  atr_pct : ℚ
  atr_pct_q75 : ℚ
  price_to_sma24 : ℚ
  price_to_sma24_q75 : ℚ
deriving DecidableEq, Repr

/-- `generate_entry_signal` (`real.py` lines 203-248): fixed-order
precondition checks, first failure short-circuits with a reason;
`candle_close` is `candle["close"]` and `low3` is `candles.iloc[-3]["low"]`. -/
def generate_entry_signal (sig_direction : ℤ) (confidence : ℚ) (f : FeatRow)
    (candle_close low3 : ℚ) (long_count short_count : ℕ) :
    Option ℤ × String :=
  if sig_direction = -1 then
    if short_count ≥ MAX_SHORT_CONCURRENT_TRADES then
      (none, "max short positions reached")
    else if confidence < 1/2 then (none, "confidence below threshold")
    else if candle_close ≥ low3 then (none, "no bearish break")
    else if f.rsi_14 > 50 then (none, "RSI too high for short")
    else if f.vol_ratio < 7/10 then (none, "low volume confirmation")
    else (some (-1), "short conditions satisfied")
  else if sig_direction = 1 then
    if long_count ≥ MAX_LONG_CONCURRENT_TRADES then
      (none, "max long positions reached")
    else if confidence < 1/2 then (none, "confidence below threshold")
    else if f.atr_pct > f.atr_pct_q75 then (none, "atr_pct too high")
    else if f.price_to_sma24 > f.price_to_sma24_q75 then
      (none, "price stretched above SMA")
    else (some 1, "long conditions satisfied")
  else (none, "no valid direction")

/-- An exchange-held position as `real.py` reads it from `get_positions`. -/
structure ExchPos where
  side_long : Bool
  open_value : ℚ
  size : ℚ
  created_min : ℚ
deriving DecidableEq, Repr

/-- An observable event of one `real.py` tick. -/
inductive REv
  | closeEv (side_long : Bool) (reason : ExitReason)
  | entryEv (direction : ℤ) (qty : ℚ)
deriving DecidableEq, Repr

/-- The event trace of one `real.py` tick in program order (lines 389-538):
the exit block walks every fetched position first (lines 390-463), and only
afterwards is the entry block evaluated (lines 467-514). -/
def realTickEvents (positions : List ExchPos) (price atr now_min : ℚ)
    (should_trade : Bool) (cooldown_active : Bool) (sig_direction : ℤ)
    (confidence : ℚ) (f : FeatRow) (candle_close low3 : ℚ) (equity : ℚ) :
    List REv :=
  let exits := positions.filterMap (fun p =>
    let direction : ℤ := if p.side_long then 1 else -1
    let entry := p.open_value / p.size
    let mins := now_min - p.created_min
    let move := (price - entry) * direction
    let atr_move := move / atr
    (exitReason direction atr_move mins).map (REv.closeEv p.side_long))
  let entries :=
    if should_trade then
      if cooldown_active then []
      else
        let long_count := (positions.filter (fun p => p.side_long)).length
        let short_count := (positions.filter (fun p => !p.side_long)).length
        match (generate_entry_signal sig_direction confidence f candle_close
            low3 long_count short_count).1 with
        | none => []
        | some dir =>
            match compute_position_size equity atr price with
            | none => []
            | some qm => [REv.entryEv dir qm.1]
    else []
  exits ++ entries

/-- Classifier for `run2.py` entry events. -/
def isEntryEv : Ev → Bool
  | Ev.entry _ => true
  | Ev.close _ => false

/-- All close events precede all entry events in a `run2.py` trace. -/
def closesBeforeEntries : List Ev → Bool
  | [] => true
  | Ev.close _ :: rest => closesBeforeEntries rest
  | Ev.entry _ :: rest => rest.all isEntryEv

/-- Classifier for `real.py` entry events. -/
def isEntryREv : REv → Bool
  | REv.entryEv _ _ => true
  | REv.closeEv _ _ => false

/-- Classifier for `real.py` close events. -/
def isCloseREv : REv → Bool
  | REv.closeEv _ _ => true
  | REv.entryEv _ _ => false

/-- All close events precede all entry events in a `real.py` trace. -/
def closesBeforeEntriesR : List REv → Bool
  | [] => true
  | REv.closeEv _ _ :: rest => closesBeforeEntriesR rest
  | REv.entryEv _ _ :: rest => rest.all isEntryREv

/-! ## Persistence write path as file-system operations

`save_state` (`state_persistence.py` lines 55-56) opens the canonical
snapshot path with mode `w` — which truncates the file — and dumps the
serialized document into it.  `export_ui_state` (`real.py` lines 302-305)
writes a sibling `.tmp` file and renames it over the target.  The model
records these as primitive operations on a store mapping paths to contents,
so that every interruption point (every prefix of the operation list) can
be inspected. -/

inductive FsOp
  | trunc (path : String)
  | write (path : String) (content : String)
  | rename (src dst : String)
deriving DecidableEq, Repr

/-- Effect of one operation on the store. -/
def applyOp (fs : String → Option String) : FsOp → String → Option String
  | .trunc p => fun q => if q = p then some "" else fs q
  | .write p c => fun q => if q = p then some (((fs p).getD "") ++ c) else fs q
  | .rename src dst => fun q =>
      if q = dst then fs src else if q = src then none else fs q

def runOps (fs : String → Option String) (ops : List FsOp) :
    String → Option String :=
  ops.foldl applyOp fs

def STATE_FILE : String := "logs/state.json"
def UI_STATE_PATH : String := "ui_state/state.json"
def UI_TMP_PATH : String := "ui_state/state.tmp"

/-- The file operations `save_state` performs (lines 55-56): a truncating
open of the canonical snapshot path followed by the dump of the serialized
document — no temporary file, no rename. -/
def saveStateOps (content : String) : List FsOp :=
  [.trunc STATE_FILE, .write STATE_FILE content]

/-- The file operations `export_ui_state` performs (`real.py` lines
302-305): write the temporary sibling, then rename it over the target. -/
def exportUiOps (content : String) : List FsOp :=
  [.trunc UI_TMP_PATH, .write UI_TMP_PATH content, .rename UI_TMP_PATH UI_STATE_PATH]

/-- The spec's write contract for the canonical slot: at every interruption
point (every prefix of the operation list) the canonical path holds either
its previous content or the new complete snapshot. -/
def crashSafe (ops : List FsOp) (canonical : String)
    (fs : String → Option String) (newContent : String) : Prop :=
  ∀ pfx ∈ ops.inits,
    runOps fs pfx canonical = fs canonical ∨
    runOps fs pfx canonical = some newContent

/-- The spec's write mechanism: all content is written to a temporary
location distinct from the canonical slot, which is changed only by the
final swap. -/
def writesViaTemp (ops : List FsOp) (canonical : String) : Prop :=
  ∃ tmp, tmp ≠ canonical ∧
    ops.all (fun op =>
      match op with
      | .trunc p => p = tmp
      | .write p _ => p = tmp
      | .rename src dst => src = tmp ∧ dst = canonical)

/-! ## The §3 margin invariants and the ledger-level operations -/

/-- §3 invariant, symbol level: `margin_used` equals the sum of
`margin_used` over the symbol's open positions. -/
def symInv (s : SymbolMem) : Prop :=
  s.margin_used = (s.open_trades.map Trade.margin_used).sum

instance (s : SymbolMem) : Decidable (symInv s) := by
  unfold symInv; infer_instance

/-- §3 invariants for the whole ledger: every symbol satisfies `symInv` and
the portfolio's `margin_used` equals the sum of the symbols'. -/
def ledgerInv (L : List (String × SymbolMem)) (p : PortfolioMem) : Prop :=
  (∀ kv ∈ L, symInv kv.2) ∧
  p.margin_used = (L.map (fun kv => kv.2.margin_used)).sum

instance (L : List (String × SymbolMem)) (p : PortfolioMem) :
    Decidable (ledgerInv L p) := by
  unfold ledgerInv; infer_instance

/-- Assignment of a symbol's state in the ledger dict (`state[symbol] = ...`
semantics: replace the value at that key). -/
def ledgerSet (L : List (String × SymbolMem)) (k : String) (s : SymbolMem) :
    List (String × SymbolMem) :=
  L.map (fun kv => if kv.1 = k then (kv.1, s) else kv)

/-- Entry admission at the ledger level: `run2.py` lines 238-331 run for the
symbol `k` against the shared portfolio. -/
def ledgerEntry (inp : TickInputs) (total_open : ℕ) (k : String)
    (L : List (String × SymbolMem)) (p : PortfolioMem) :
    List (String × SymbolMem) × PortfolioMem :=
  match L.find? (fun kv => kv.1 = k) with
  | none => (L, p)
  | some kv =>
      let e := entryStep inp total_open kv.2 p
      (ledgerSet L k e.sym, e.pf)

/-- Exit settlement at the ledger level: `run2.py` lines 366-424 run for the
symbol `k` against the shared portfolio. -/
def ledgerExit (inp : TickInputs) (total_open : ℕ) (k : String)
    (L : List (String × SymbolMem)) (p : PortfolioMem) :
    List (String × SymbolMem) × PortfolioMem :=
  match L.find? (fun kv => kv.1 = k) with
  | none => (L, p)
  | some kv =>
      let r := exitStep inp total_open kv.2 p
      (ledgerSet L k r.1, r.2.1)

/-- Daily rollover at the ledger level: `run2.py` lines 202-213 run for the
symbol `k`. -/
def ledgerRollover (today : ℤ) (k : String)
    (L : List (String × SymbolMem)) (p : PortfolioMem) :
    List (String × SymbolMem) × PortfolioMem :=
  match L.find? (fun kv => kv.1 = k) with
  | none => (L, dailyResetPf today p)
  | some kv => (ledgerSet L k (dailyResetSym today kv.2), dailyResetPf today p)

/-! ## Supporting concrete values -/

/-- Intermediate values of the `run2.py` sizing computation (lines 247-292),
recorded so the §8 Risk Allocator scenario can be checked value by value. -/
structure AllocTrace where
  risk_amt : ℚ
  size_by_risk : ℚ
  margin_by_risk : ℚ
  max_margin_this_trade : ℚ
  scaling_factor : ℚ
  size_after_scale : ℚ
  size_final : ℚ
  margin_required : ℚ
  accepted : Bool
deriving DecidableEq, Repr

/-- The `run2.py` sizing computation (lines 247-292) with its intermediates:
risk-based size from the symbol's equity, margin it would need, per-trade
margin cap from the portfolio's equity, proportional scale-down, step
flooring, minimum-size admission, margin recomputed from the floored size. -/
def run2Alloc (symbol_equity portfolio_equity atr last_price step_size
    min_size : ℚ) : AllocTrace :=
  let risk_amt := symbol_equity * RISK_PER_TRADE
  let size_by_risk := risk_amt / atr
  let notional_by_risk := size_by_risk * last_price
  let margin_by_risk := notional_by_risk / LEVERAGE
  let max_margin_this_trade := portfolio_equity * MAX_MARGIN_PER_TRADE
  let scaling_factor :=
    if margin_by_risk > max_margin_this_trade then
      max_margin_this_trade / margin_by_risk
    else 1
  let size_after_scale := size_by_risk * scaling_factor
  let size_final := round_to_step_size size_after_scale step_size
  let margin_required := size_final * last_price / LEVERAGE
  { risk_amt := risk_amt
    size_by_risk := size_by_risk
    margin_by_risk := margin_by_risk
    max_margin_this_trade := max_margin_this_trade
    scaling_factor := scaling_factor
    size_after_scale := size_after_scale
    size_final := size_final
    margin_required := margin_required
    accepted := decide (¬ size_final < min_size) }

/-- A store in which the canonical snapshot slot holds a previous complete
snapshot. -/
def oldFs : String → Option String :=
  fun p => if p = STATE_FILE then some "previous" else none

/-- A ledger symbol state with reserved margin, used to probe the snapshot
round trip. -/
def c5SymA : SymbolMem :=
  { equity := 500, day_start_equity := 500, daily_pnl := 0, current_day := 0,
    trading_enabled := true, open_trades := [], last_candle_time := none,
    margin_used := 75, available_margin := 425 }

/-- The same state with no reserved margin. -/
def c5SymB : SymbolMem :=
  { c5SymA with margin_used := 0, available_margin := 500 }

/-- A portfolio with reserved margin. -/
def c5PfA : PortfolioMem :=
  { equity := 500, day_start_equity := 500, daily_pnl := 0,
    trading_enabled := true, current_day := 0, margin_used := 75,
    available_margin := 425, peak_equity := 500 }

/-- The same portfolio with no reserved margin and a different peak. -/
def c5PfB : PortfolioMem :=
  { c5PfA with margin_used := 0, available_margin := 500, peak_equity := 600 }

/-! ## Theorems -/

/-- C10: when the snapshot file exists but cannot be parsed, `load_state`
returns `None`; `setup_state` then returns exactly the fresh state at the
configured initial capital, identical to the no-snapshot startup. -/
theorem c10_corrupt_snapshot_gives_fresh_state (symbols : List String)
    (initial_capital : ℚ) (today : ℤ) :
    load_state .corrupt = none ∧
    setup_state symbols initial_capital today .corrupt =
      setup_state symbols initial_capital today .absent ∧
    setup_state symbols initial_capital today .corrupt =
      initState symbols initial_capital today :=
  ⟨rfl, rfl, rfl⟩

/-- C5 counterexample: two in-memory ledgers that differ in a symbol's
`margin_used`/`available_margin` and in the portfolio's margin fields
produce identical snapshot documents, so no load of the snapshot can return
both originals — the margin fields do not round-trip. -/
theorem c5_margin_fields_not_serialized :
    save_state [("cmt_ethusdt", c5SymA)] c5PfA 0 =
      save_state [("cmt_ethusdt", c5SymB)] c5PfB 0 ∧
    c5SymA ≠ c5SymB ∧ c5PfA ≠ c5PfB :=
  ⟨rfl, by decide, by decide⟩

/-- C5 amended: `load_state ∘ save_state` returns exactly the serialized
projection of the ledger: `equity`, `day_start_equity`, `daily_pnl`,
`current_day`, `trading_enabled`, the open-position list (with every
per-position field, `margin_used` included) and `last_candle_time`
round-trip losslessly, and a same-day `setup_state` resumes that projection
verbatim.  The symbol-level and portfolio-level `margin_used` and
`available_margin` (and `peak_equity`) are not serialized. -/
theorem c5_saved_fields_roundtrip (state : List (String × SymbolMem))
    (pf : PortfolioMem) (t : ℤ) :
    load_state (.valid (save_state state pf t)) = some (save_state state pf t) ∧
    (save_state state pf t).state =
      state.map (fun kv => (kv.1, saveSymbol kv.2)) ∧
    (∀ s : SymbolMem,
      (saveSymbol s).equity = s.equity ∧
      (saveSymbol s).day_start_equity = s.day_start_equity ∧
      (saveSymbol s).daily_pnl = s.daily_pnl ∧
      (saveSymbol s).current_day = s.current_day ∧
      (saveSymbol s).trading_enabled = s.trading_enabled ∧
      (saveSymbol s).open_trades = s.open_trades ∧
      (saveSymbol s).last_candle_time = s.last_candle_time) ∧
    (savePortfolio pf).equity = pf.equity ∧
    (savePortfolio pf).day_start_equity = pf.day_start_equity ∧
    (savePortfolio pf).daily_pnl = pf.daily_pnl ∧
    (savePortfolio pf).trading_enabled = pf.trading_enabled ∧
    (savePortfolio pf).current_day = pf.current_day ∧
    (∀ symbols cap today, pf.current_day = today →
      setup_state symbols cap today (.valid (save_state state pf t)) =
        ((save_state state pf t).state, (save_state state pf t).portfolio)) :=
  ⟨rfl, rfl, fun _ => ⟨rfl, rfl, rfl, rfl, rfl, rfl, rfl⟩, rfl, rfl, rfl, rfl,
   rfl, fun _ _ _ h => by simp [setup_state, load_state, save_state,
     savePortfolio, h]⟩

/-- C5 witness: the round-trip theorem applied to a concrete ledger on an
unchanged calendar day. -/
theorem c5_saved_fields_roundtrip_witness :
    c5PfA.current_day = 0 ∧
    setup_state ["cmt_ethusdt"] 500 0
        (.valid (save_state [("cmt_ethusdt", c5SymA)] c5PfA 0)) =
      ((save_state [("cmt_ethusdt", c5SymA)] c5PfA 0).state,
       (save_state [("cmt_ethusdt", c5SymA)] c5PfA 0).portfolio) :=
  ⟨rfl, (c5_saved_fields_roundtrip [("cmt_ethusdt", c5SymA)] c5PfA 0).2.2.2.2.2.2.2.2
    ["cmt_ethusdt"] 500 0 rfl⟩

/-- C7: the §8 Risk Allocator scenario reproduced on the `run2.py` sizing
computation: risk size 1.5, margin_by_risk 600, per-trade cap 75, scale
factor 0.125, final size 0.1875 already step-aligned, margin_required 75,
and the minimum-size admission passes. -/
theorem c7_risk_allocator_scenario :
    (run2Alloc 500 500 20 2000 (1/10000) (1/100)).size_by_risk = 3/2 ∧
    (run2Alloc 500 500 20 2000 (1/10000) (1/100)).margin_by_risk = 600 ∧
    (run2Alloc 500 500 20 2000 (1/10000) (1/100)).max_margin_this_trade = 75 ∧
    (run2Alloc 500 500 20 2000 (1/10000) (1/100)).scaling_factor = 1/8 ∧
    (run2Alloc 500 500 20 2000 (1/10000) (1/100)).size_after_scale = 3/16 ∧
    (run2Alloc 500 500 20 2000 (1/10000) (1/100)).size_final = 3/16 ∧
    (run2Alloc 500 500 20 2000 (1/10000) (1/100)).margin_required = 75 ∧
    (run2Alloc 500 500 20 2000 (1/10000) (1/100)).accepted = true := by
  refine ⟨?_, ?_, ?_, ?_, ?_, ?_, ?_, ?_⟩ <;>
    simp only [run2Alloc, round_to_step_size, RISK_PER_TRADE, LEVERAGE,
      MAX_MARGIN_PER_TRADE, decide_eq_true_eq] <;>
    norm_num

/-- C3 counterexample: `save_state` neither writes through a temporary
location nor keeps the canonical slot intact at every interruption point —
interrupting right after the truncating open leaves the canonical snapshot
file empty, which is neither the previous nor the new snapshot. -/
theorem c3_save_state_not_atomic :
    ¬ (writesViaTemp (saveStateOps "fresh") STATE_FILE ∧
       crashSafe (saveStateOps "fresh") STATE_FILE oldFs "fresh") := by
  rintro ⟨-, h⟩
  have hmem : [FsOp.trunc STATE_FILE] ∈ (saveStateOps "fresh").inits := by
    decide
  have := h [FsOp.trunc STATE_FILE] hmem
  revert this
  decide

/-- C3 amended: `save_state` truncates the canonical snapshot file in place
and writes the new document directly into it, so whenever the previous
snapshot is nonempty, an interruption after the truncating open leaves the
canonical slot holding neither complete snapshot; the
write-temporary-then-swap pattern is implemented by `export_ui_state` for
the UI state file, and that path is atomic in exactly the claimed sense. -/
theorem c3_direct_write_vs_temp_swap :
    (∀ (content : String) (fs : String → Option String),
      fs STATE_FILE ≠ some "" → content ≠ "" →
      ¬ crashSafe (saveStateOps content) STATE_FILE fs content) ∧
    (∀ (content : String) (fs : String → Option String),
      writesViaTemp (exportUiOps content) UI_STATE_PATH ∧
      crashSafe (exportUiOps content) UI_STATE_PATH fs content) := by
  constructor
  · intro content fs hOld hNew hcs
    have hmem : [FsOp.trunc STATE_FILE] ∈ (saveStateOps content).inits := by
      simp [saveStateOps, List.inits]
    have h := hcs [FsOp.trunc STATE_FILE] hmem
    simp only [runOps, List.foldl, applyOp, if_pos rfl] at h
    rcases h with h | h
    · exact hOld h.symm
    · exact hNew (Option.some.injEq _ _ ▸ h).symm
  · intro content fs
    constructor
    · exact ⟨UI_TMP_PATH, by decide, by simp [exportUiOps, UI_TMP_PATH,
        UI_STATE_PATH]⟩
    · intro pfx hmem
      simp [exportUiOps, List.inits] at hmem
      rcases hmem with h | h | h | h <;> subst h <;>
        simp [runOps, applyOp, UI_STATE_PATH, UI_TMP_PATH, STATE_FILE]

/-- C3 witness: the amended theorem applied to the concrete store holding a
previous snapshot and a concrete new document. -/
theorem c3_direct_write_vs_temp_swap_witness :
    (oldFs STATE_FILE ≠ some "" ∧ "fresh" ≠ "" ∧
      ¬ crashSafe (saveStateOps "fresh") STATE_FILE oldFs "fresh") ∧
    crashSafe (exportUiOps "fresh") UI_STATE_PATH oldFs "fresh" :=
  ⟨⟨by decide, by decide,
    c3_direct_write_vs_temp_swap.1 "fresh" oldFs (by decide) (by decide)⟩,
   (c3_direct_write_vs_temp_swap.2 "fresh" oldFs).2⟩

/-- First-match-wins reading of the `if`/`elif` chain shared by both
directions of the `real.py` Exit Policy. -/
lemma exitReasonCore_priority (sM tM eM eMin hMin am mn : ℚ) :
    (am ≤ -sM → exitReasonCore sM tM eM eMin hMin am mn = some .STOP) ∧
    (¬ am ≤ -sM → am ≥ tM →
      exitReasonCore sM tM eM eMin hMin am mn = some .TARGET) ∧
    (¬ am ≤ -sM → ¬ am ≥ tM → (mn ≥ eMin ∧ am < eM) →
      exitReasonCore sM tM eM eMin hMin am mn = some .EARLY_FAIL) ∧
    (¬ am ≤ -sM → ¬ am ≥ tM → ¬ (mn ≥ eMin ∧ am < eM) → mn ≥ hMin →
      exitReasonCore sM tM eM eMin hMin am mn = some .TIMEOUT) ∧
    (¬ am ≤ -sM → ¬ am ≥ tM → ¬ (mn ≥ eMin ∧ am < eM) → ¬ mn ≥ hMin →
      exitReasonCore sM tM eM eMin hMin am mn = none) := by
  refine ⟨?_, ?_, ?_, ?_, ?_⟩
  · intro h1
    simp only [exitReasonCore, if_pos h1]
  · intro h1 h2
    simp only [exitReasonCore]
    rw [if_neg h1, if_pos h2]
  · intro h1 h2 h3
    simp only [exitReasonCore]
    rw [if_neg h1, if_neg h2, if_pos h3]
  · intro h1 h2 h3 h4
    simp only [exitReasonCore]
    rw [if_neg h1, if_neg h2, if_neg h3, if_pos h4]
  · intro h1 h2 h3 h4
    simp only [exitReasonCore]
    rw [if_neg h1, if_neg h2, if_neg h3, if_neg h4]

/-- C6: the `real.py` Exit Policy checks its four triggers in the strict
priority order STOP, TARGET, EARLY_FAIL, TIMEOUT with the first match
winning, for both directions; in particular a position satisfying both the
STOP condition and the TIMEOUT condition reports STOP, never TIMEOUT. -/
theorem c6_exit_trigger_priority (d : ℤ) (atr_move mins : ℚ) :
    (stopCond d atr_move → exitReason d atr_move mins = some .STOP) ∧
    (¬ stopCond d atr_move → targetCond d atr_move →
      exitReason d atr_move mins = some .TARGET) ∧
    (¬ stopCond d atr_move → ¬ targetCond d atr_move →
      earlyFailCond d atr_move mins →
      exitReason d atr_move mins = some .EARLY_FAIL) ∧
    (¬ stopCond d atr_move → ¬ targetCond d atr_move →
      ¬ earlyFailCond d atr_move mins → timeoutCond d mins →
      exitReason d atr_move mins = some .TIMEOUT) ∧
    (¬ stopCond d atr_move → ¬ targetCond d atr_move →
      ¬ earlyFailCond d atr_move mins → ¬ timeoutCond d mins →
      exitReason d atr_move mins = none) ∧
    (stopCond d atr_move → timeoutCond d mins →
      exitReason d atr_move mins = some .STOP) := by
  by_cases hd : d = 1
  · simp only [stopCond, targetCond, earlyFailCond, timeoutCond, exitReason,
      hd, if_true, ite_true]
    obtain ⟨p1, p2, p3, p4, p5⟩ := exitReasonCore_priority LONG_STOP_ATR
      LONG_TARGET_ATR LONG_EARLY_FAIL_ATR LONG_EARLY_FAIL_MIN
      LONG_MAX_HOLD_MIN atr_move mins
    exact ⟨p1, p2, p3, p4, p5, fun hs _ => p1 hs⟩
  · simp only [stopCond, targetCond, earlyFailCond, timeoutCond, exitReason,
      if_neg hd]
    obtain ⟨p1, p2, p3, p4, p5⟩ := exitReasonCore_priority SHORT_STOP_ATR
      SHORT_TARGET_ATR SHORT_EARLY_FAIL_ATR SHORT_EARLY_FAIL_MIN
      SHORT_MAX_HOLD_MIN atr_move mins
    exact ⟨p1, p2, p3, p4, p5, fun hs _ => p1 hs⟩

/-- C6 witness: a long position whose state satisfies both the STOP and the
TIMEOUT conditions reports STOP. -/
theorem c6_exit_trigger_priority_witness :
    stopCond 1 (-1) ∧ timeoutCond 1 200 ∧
    exitReason 1 (-1) 200 = some .STOP :=
  ⟨by norm_num [stopCond, LONG_STOP_ATR],
   by norm_num [timeoutCond, LONG_MAX_HOLD_MIN],
   (c6_exit_trigger_priority 1 (-1) 200).2.2.2.2.2
     (by norm_num [stopCond, LONG_STOP_ATR])
     (by norm_num [timeoutCond, LONG_MAX_HOLD_MIN])⟩

/-- For positive prices, `exp(1 * ln(x/e))` collapses and the log-return pnl
at direction `+1` is `s*e*(x/e - 1)`. -/
lemma pnlLog_one (e x s : ℝ) (he : 0 < e) (hx : 0 < x) :
    pnlLog e x s 1 = s * e * (x / e - 1) := by
  unfold pnlLog
  rw [Int.cast_one, one_mul, Real.exp_log (div_pos hx he)]

/-- For positive prices, `exp(-1 * ln(x/e))` collapses and the log-return
pnl at direction `-1` is `s*e*(e/x - 1)`. -/
lemma pnlLog_neg_one (e x s : ℝ) (he : 0 < e) (hx : 0 < x) :
    pnlLog e x s (-1) = s * e * (e / x - 1) := by
  unfold pnlLog
  rw [Int.cast_neg, Int.cast_one, neg_one_mul, Real.exp_neg,
    Real.exp_log (div_pos hx he), inv_div]

/-- C4 counterexample: the pnl `real.py` line 448 realizes on a confirmed
short exit (entry 100, exit 50, size 1) is 50, while the §4.3 log-return
formulation yields 100 — the realized pnl does not equal the log-return
formulation on every confirmed exit. -/
theorem c4_short_exit_linear_pnl_differs :
    ((linearPnl 100 50 1 (-1) : ℚ) : ℝ) ≠ pnlLog 100 50 1 (-1) := by
  have h : pnlLog 100 50 1 (-1) = 100 := by
    rw [pnlLog_neg_one 100 50 1 (by norm_num) (by norm_num)]; norm_num
  rw [h, linearPnl]
  norm_num

/-- The rational form of the `run2.py` pnl agrees with the ℝ-level
`exp`/`ln` computation at both directions the code uses. -/
lemma pnlLog_eq_pnlQ (e x s : ℚ) (he : 0 < e) (hx : 0 < x) :
    pnlLog e x s 1 = ((pnlQ e x s 1 : ℚ) : ℝ) ∧
    pnlLog e x s (-1) = ((pnlQ e x s (-1) : ℚ) : ℝ) := by
  have he' : (0:ℝ) < (e:ℝ) := by exact_mod_cast he
  have hx' : (0:ℝ) < (x:ℝ) := by exact_mod_cast hx
  constructor
  · rw [pnlLog_one _ _ _ he' hx']
    unfold pnlQ
    push_cast [zpow_one]
    ring
  · rw [pnlLog_neg_one _ _ _ he' hx']
    unfold pnlQ
    push_cast [zpow_neg_one, inv_div]
    ring

/-- C4 amended: `run2.py` (lines 380-381) realizes exits by the log-return
formulation at both directions; `real.py` (line 448) records the linear
pnl `(exit - entry) * size * direction`, which coincides with the
log-return value for longs but differs from it for every short whose exit
price is not the entry price. -/
theorem c4_pnl_formulations (e x s : ℚ) :
    (0 < e → 0 < x →
      pnlLog e x s 1 = ((pnlQ e x s 1 : ℚ) : ℝ) ∧
      pnlLog e x s (-1) = ((pnlQ e x s (-1) : ℚ) : ℝ)) ∧
    (0 < e → 0 < x →
      ((linearPnl e x s 1 : ℚ) : ℝ) = pnlLog e x s 1) ∧
    (0 < e → 0 < x → s ≠ 0 → x ≠ e →
      ((linearPnl e x s (-1) : ℚ) : ℝ) ≠ pnlLog e x s (-1)) := by
  refine ⟨fun he hx => pnlLog_eq_pnlQ e x s he hx, fun he hx => ?_,
    fun he hx hs hxe => ?_⟩
  · have he' : (0:ℝ) < (e:ℝ) := by exact_mod_cast he
    have hx' : (0:ℝ) < (x:ℝ) := by exact_mod_cast hx
    rw [pnlLog_one _ _ _ he' hx']
    unfold linearPnl
    push_cast
    field_simp
    ring
  · have he' : (0:ℝ) < (e:ℝ) := by exact_mod_cast he
    have hx' : (0:ℝ) < (x:ℝ) := by exact_mod_cast hx
    rw [pnlLog_neg_one _ _ _ he' hx']
    unfold linearPnl
    push_cast
    intro h
    have hx0 : (x:ℝ) ≠ 0 := ne_of_gt hx'
    have hs' : (s:ℝ) ≠ 0 := by exact_mod_cast hs
    have hxe' : (x:ℝ) ≠ (e:ℝ) := by exact_mod_cast hxe
    field_simp at h
    have key : (s:ℝ) * ((e:ℝ) - (x:ℝ)) * ((x:ℝ) - (e:ℝ)) = 0 := by
      linear_combination h
    rcases mul_eq_zero.mp key with h0 | h0
    · rcases mul_eq_zero.mp h0 with h0 | h0
      · exact hs' h0
      · exact hxe' (by linarith)
    · exact hxe' (by linarith)

/-- C4 witness: the amended theorem at concrete prices — a long at
entry 100, exit 200, size 3 realizes the same value linearly and by
log-return; the short counterexample instance of the last conjunct. -/
theorem c4_pnl_formulations_witness :
    ((linearPnl 100 200 3 1 : ℚ) : ℝ) =
      pnlLog ((100:ℚ):ℝ) ((200:ℚ):ℝ) ((3:ℚ):ℝ) 1 ∧
    ((linearPnl 100 50 1 (-1) : ℚ) : ℝ) ≠
      pnlLog ((100:ℚ):ℝ) ((50:ℚ):ℝ) ((1:ℚ):ℝ) (-1) :=
  ⟨(c4_pnl_formulations 100 200 3).2.1 (by norm_num) (by norm_num),
   (c4_pnl_formulations 100 50 1).2.2 (by norm_num) (by norm_num)
     (by norm_num) (by norm_num)⟩

/-- Truncation toward zero agrees with the floor on nonnegative inputs. -/
lemma qtrunc_of_nonneg (q : ℚ) (h : 0 ≤ q) : qtrunc q = ⌊q⌋ := if_pos h

/-- `round_qty` is monotone on nonnegative quantities. -/
lemma round_qty_mono (a b : ℚ) (ha : 0 ≤ a) (hab : a ≤ b) :
    round_qty a ≤ round_qty b := by
  have hstep : (0:ℚ) < STEP_SIZE := by norm_num [STEP_SIZE]
  have hdiv : a / STEP_SIZE ≤ b / STEP_SIZE := (div_le_div_right hstep).mpr hab
  have ha' : 0 ≤ a / STEP_SIZE := div_nonneg ha hstep.le
  have hb' : 0 ≤ b / STEP_SIZE := le_trans ha' hdiv
  unfold round_qty
  rw [qtrunc_of_nonneg _ ha', qtrunc_of_nonneg _ hb']
  have : (⌊a / STEP_SIZE⌋ : ℚ) ≤ (⌊b / STEP_SIZE⌋ : ℚ) := by
    exact_mod_cast Int.floor_le_floor hdiv
  exact mul_le_mul_of_nonneg_right this hstep.le

/-- `round_qty` of a nonnegative quantity is nonnegative. -/
lemma round_qty_nonneg (a : ℚ) (ha : 0 ≤ a) : 0 ≤ round_qty a := by
  have hstep : (0:ℚ) < STEP_SIZE := by norm_num [STEP_SIZE]
  have ha' : 0 ≤ a / STEP_SIZE := div_nonneg ha hstep.le
  unfold round_qty
  rw [qtrunc_of_nonneg _ ha']
  have : (0:ℚ) ≤ (⌊a / STEP_SIZE⌋ : ℚ) := by
    exact_mod_cast Int.floor_nonneg.mpr ha'
  exact mul_nonneg this hstep.le

/-- Closed form of the size the allocator accepts. -/
lemma acceptedSize_eq (equity atr price : ℚ) :
    acceptedSize equity atr price =
      if round_qty (min (equity * RISK_PER_TRADE / atr)
          (equity * MAX_MARGIN_PER_TRADE * LEVERAGE / price)) < MIN_SIZE then 0
      else round_qty (min (equity * RISK_PER_TRADE / atr)
          (equity * MAX_MARGIN_PER_TRADE * LEVERAGE / price)) := by
  unfold acceptedSize compute_position_size
  by_cases h : round_qty (min (equity * RISK_PER_TRADE / atr)
      (equity * MAX_MARGIN_PER_TRADE * LEVERAGE / price)) < MIN_SIZE
  · rw [if_pos h, if_pos h]
  · rw [if_neg h, if_neg h]

/-- C9: holding equity, price and the configured budgets, step size and
minimum size fixed, the size accepted by `compute_position_size` is a
non-increasing function of ATR, counting a below-minimum rejection as
size 0. -/
theorem c9_size_antitone_in_atr (equity price atr1 atr2 : ℚ)
    (hE : 0 ≤ equity) (hP : 0 < price) (h1 : 0 < atr1) (h12 : atr1 ≤ atr2) :
    acceptedSize equity atr2 price ≤ acceptedSize equity atr1 price := by
  have h2 : 0 < atr2 := lt_of_lt_of_le h1 h12
  have hRm : 0 ≤ equity * RISK_PER_TRADE := by
    have : (0:ℚ) ≤ RISK_PER_TRADE := by norm_num [RISK_PER_TRADE]
    exact mul_nonneg hE this
  have hMm : 0 ≤ equity * MAX_MARGIN_PER_TRADE * LEVERAGE / price := by
    have hM : (0:ℚ) ≤ MAX_MARGIN_PER_TRADE := by
      norm_num [MAX_MARGIN_PER_TRADE]
    have hL : (0:ℚ) ≤ LEVERAGE := by norm_num [LEVERAGE]
    exact div_nonneg (mul_nonneg (mul_nonneg hE hM) hL) hP.le
  have hrisk2 : 0 ≤ equity * RISK_PER_TRADE / atr2 := div_nonneg hRm h2.le
  have hriskmono : equity * RISK_PER_TRADE / atr2 ≤
      equity * RISK_PER_TRADE / atr1 :=
    div_le_div_of_nonneg_left hRm h1 h12
  have hraw : min (equity * RISK_PER_TRADE / atr2)
        (equity * MAX_MARGIN_PER_TRADE * LEVERAGE / price) ≤
      min (equity * RISK_PER_TRADE / atr1)
        (equity * MAX_MARGIN_PER_TRADE * LEVERAGE / price) :=
    min_le_min hriskmono le_rfl
  have hraw2 : 0 ≤ min (equity * RISK_PER_TRADE / atr2)
      (equity * MAX_MARGIN_PER_TRADE * LEVERAGE / price) :=
    le_min hrisk2 hMm
  have hsize : round_qty (min (equity * RISK_PER_TRADE / atr2)
        (equity * MAX_MARGIN_PER_TRADE * LEVERAGE / price)) ≤
      round_qty (min (equity * RISK_PER_TRADE / atr1)
        (equity * MAX_MARGIN_PER_TRADE * LEVERAGE / price)) :=
    round_qty_mono _ _ hraw2 hraw
  have hsize2nn : 0 ≤ round_qty (min (equity * RISK_PER_TRADE / atr2)
      (equity * MAX_MARGIN_PER_TRADE * LEVERAGE / price)) :=
    round_qty_nonneg _ hraw2
  rw [acceptedSize_eq, acceptedSize_eq]
  by_cases h2m : round_qty (min (equity * RISK_PER_TRADE / atr2)
      (equity * MAX_MARGIN_PER_TRADE * LEVERAGE / price)) < MIN_SIZE
  · rw [if_pos h2m]
    by_cases h1m : round_qty (min (equity * RISK_PER_TRADE / atr1)
        (equity * MAX_MARGIN_PER_TRADE * LEVERAGE / price)) < MIN_SIZE
    · rw [if_pos h1m]
    · rw [if_neg h1m]
      exact le_trans hsize2nn hsize
  · rw [if_neg h2m, if_neg (fun h1m => h2m (lt_of_le_of_lt hsize h1m))]
    exact hsize

/-- C9 witness: the monotonicity theorem at equity 500, price 2000, ATR
values 20 and 40. -/
theorem c9_size_antitone_in_atr_witness :
    (0:ℚ) ≤ 500 ∧ (0:ℚ) < 2000 ∧ (0:ℚ) < 20 ∧ (20:ℚ) ≤ 40 ∧
    acceptedSize 500 40 2000 ≤ acceptedSize 500 20 2000 :=
  ⟨by norm_num, by norm_num, by norm_num, by norm_num,
   c9_size_antitone_in_atr 500 2000 20 40 (by norm_num) (by norm_num)
     (by norm_num) (by norm_num)⟩

/-- An open position carrying margin 75. -/
def c1Trade : Trade :=
  { direction := 1, entry_price := 2000, size := 3/16, margin_used := 75,
    entry_time := 0, target_exit_time := 59 }

/-- A symbol state satisfying the §3 margin equality with one open
position. -/
def c1Sym : SymbolMem :=
  { equity := 500, day_start_equity := 500, daily_pnl := 0, current_day := 0,
    trading_enabled := true, open_trades := [c1Trade],
    last_candle_time := none, margin_used := 75, available_margin := 425 }

/-- The matching portfolio satisfying the §3 portfolio equality. -/
def c1Pf : PortfolioMem :=
  { equity := 500, day_start_equity := 500, daily_pnl := 0,
    trading_enabled := true, current_day := 0, margin_used := 75,
    available_margin := 425, peak_equity := 500 }

/-- An open trade that is due for exit in the probed tick. -/
def c2OldTrade : Trade :=
  { direction := 1, entry_price := 2000, size := 1/100, margin_used := 10,
    entry_time := 0, target_exit_time := 0 }

/-- A symbol state holding one due trade, with margin available for a fresh
entry. -/
def c2Sym : SymbolMem :=
  { equity := 500, day_start_equity := 500, daily_pnl := 0, current_day := 0,
    trading_enabled := true, open_trades := [c2OldTrade],
    last_candle_time := none, margin_used := 10, available_margin := 490 }

/-- The matching portfolio state. -/
def c2Pf : PortfolioMem :=
  { equity := 500, day_start_equity := 500, daily_pnl := 0,
    trading_enabled := true, current_day := 0, margin_used := 10,
    available_margin := 490, peak_equity := 500 }

/-- Market inputs for the probed tick: a tradable signal, live prices and a
positive ATR. -/
def c2Inp : TickInputs :=
  { today := 0, now := 100, should_trade := true, sig_direction := 1,
    last_price := some 2000, atr := some 20, exit_price := some 2000,
    step_size := 1/10000, min_size := 1/100 }

/-- C2 counterexample: in the `run2.py` tick the entry block runs before the
exit block — on a state with one due position and an admissible signal the
tick's event trace opens the new position first and settles the due close
after it, so the Exit Policy is not applied before the new entry is
considered. -/
theorem c2_run2_entry_precedes_exit :
    closesBeforeEntries (run2SymbolTick c2Inp 1 c2Sym c2Pf).2.2.1 = false := by
  norm_num [c2Inp, c2Sym, c2Pf, c2OldTrade, run2SymbolTick, dailyResetSym,
    dailyResetPf, ddCheckPf, ddCheckSym, entryStep, exitStep, exitStepOne,
    settleClose, round_to_step_size, pnlQ, closesBeforeEntries, isEntryEv,
    RISK_PER_TRADE, LEVERAGE, MAX_MARGIN_PER_TRADE, MAX_NOTIONAL_PCT,
    MAX_CONCURRENT_TRADES, PORTFOLIO_DRAWDOWN_LIMIT, SYMBOL_DRAWDOWN_LIMIT]

/-- A list of entry events alone satisfies the order check. -/
lemma closesBeforeEntriesR_of_all_entry (b : List REv)
    (hb : b.all isEntryREv = true) : closesBeforeEntriesR b = true := by
  cases b with
  | nil => rfl
  | cons e rest =>
      cases e with
      | closeEv s r => simp [isEntryREv] at hb
      | entryEv d q =>
          simp only [List.all_cons, Bool.and_eq_true] at hb
          simpa [closesBeforeEntriesR] using hb.2

/-- Close events followed by entry events satisfy the order check. -/
lemma closesBeforeEntriesR_append (a b : List REv)
    (ha : a.all isCloseREv = true) (hb : b.all isEntryREv = true) :
    closesBeforeEntriesR (a ++ b) = true := by
  induction a with
  | nil => simpa using closesBeforeEntriesR_of_all_entry b hb
  | cons e rest ih =>
      cases e with
      | closeEv s r =>
          simp only [List.all_cons, Bool.and_eq_true] at ha
          simpa [closesBeforeEntriesR] using ih ha.2
      | entryEv d q => simp [isCloseREv] at ha

/-- C2 amended: in the `real.py` tick every exit of the fetched positions is
evaluated and applied before the entry block is considered — for all
inputs, the tick's event trace places every close event before any entry
event. -/
theorem c2_real_exits_before_entries (positions : List ExchPos)
    (price atr now_min : ℚ) (should_trade cooldown_active : Bool)
    (sig_direction : ℤ) (confidence : ℚ) (f : FeatRow)
    (candle_close low3 equity : ℚ) :
    closesBeforeEntriesR
      (realTickEvents positions price atr now_min should_trade
        cooldown_active sig_direction confidence f candle_close low3 equity) =
      true := by
  unfold realTickEvents
  apply closesBeforeEntriesR_append
  · rw [List.all_eq_true]
    intro e he
    rcases List.mem_filterMap.mp he with ⟨pos, _, hf⟩
    rcases Option.map_eq_some.mp hf with ⟨r, _, hr⟩
    rw [← hr]
    rfl
  · rw [List.all_eq_true]
    intro e he
    rcases hst : should_trade with _ | _
    · simp [hst] at he
    · rcases hcd : cooldown_active with _ | _
      · simp only [hst, hcd, if_true, if_false, ite_true, ite_false] at he
        rcases hgen : (generate_entry_signal sig_direction confidence f
            candle_close low3
            ((positions.filter (fun p => p.side_long)).length)
            ((positions.filter (fun p => !p.side_long)).length)).1 with _ | dir
        · simp [hgen] at he
        · rcases hcp : compute_position_size equity atr price with _ | qm
          · simp [hgen, hcp] at he
          · simp [hgen, hcp] at he
            subst he
            rfl
      · simp [hst, hcd] at he

/-- A disabled symbol flag short-circuits the whole entry block. -/
lemma entryStep_sym_disabled (inp : TickInputs) (n : ℕ) (s : SymbolMem)
    (p : PortfolioMem) (hs : s.trading_enabled = false) :
    entryStep inp n s p =
      { sym := s, pf := p, events := [], total_open := n, skipRest := false } := by
  unfold entryStep
  rw [if_neg]
  rintro ⟨-, h2, -⟩
  rw [hs] at h2
  exact Bool.false_ne_true h2

/-- A disabled portfolio flag short-circuits the whole entry block. -/
lemma entryStep_pf_disabled (inp : TickInputs) (n : ℕ) (s : SymbolMem)
    (p : PortfolioMem) (hp : p.trading_enabled = false) :
    entryStep inp n s p =
      { sym := s, pf := p, events := [], total_open := n, skipRest := false } := by
  unfold entryStep
  rw [if_neg]
  rintro ⟨-, -, h3, -⟩
  rw [hp] at h3
  exact Bool.false_ne_true h3

/-- One exit-loop iteration never touches either `trading_enabled` flag. -/
lemma exitStepOne_flags (inp : TickInputs)
    (acc : SymbolMem × PortfolioMem × List Ev × ℕ) (t : Trade) :
    (exitStepOne inp acc t).1.trading_enabled = acc.1.trading_enabled ∧
    (exitStepOne inp acc t).2.1.trading_enabled = acc.2.1.trading_enabled := by
  constructor <;>
  · unfold exitStepOne settleClose
    repeat' split
    all_goals rfl

/-- The exit fold never touches either `trading_enabled` flag. -/
lemma exitFold_flags (inp : TickInputs) (l : List Trade) :
    ∀ acc : SymbolMem × PortfolioMem × List Ev × ℕ,
    (l.foldl (exitStepOne inp) acc).1.trading_enabled =
      acc.1.trading_enabled ∧
    (l.foldl (exitStepOne inp) acc).2.1.trading_enabled =
      acc.2.1.trading_enabled := by
  induction l with
  | nil => intro acc; exact ⟨rfl, rfl⟩
  | cons t rest ih =>
      intro acc
      simp only [List.foldl_cons]
      obtain ⟨h1, h2⟩ := ih (exitStepOne inp acc t)
      obtain ⟨g1, g2⟩ := exitStepOne_flags inp acc t
      exact ⟨h1.trans g1, h2.trans g2⟩

/-- One exit-loop iteration behaves identically whatever the symbol's
`trading_enabled` flag is, carrying the flag through unchanged. -/
lemma exitStepOne_flag_indep (inp : TickInputs) (t : Trade) (s : SymbolMem)
    (p : PortfolioMem) (evs : List Ev) (n : ℕ) (b : Bool) :
    exitStepOne inp ({ s with trading_enabled := b }, p, evs, n) t =
      ({ (exitStepOne inp (s, p, evs, n) t).1 with trading_enabled := b },
       (exitStepOne inp (s, p, evs, n) t).2) := by
  unfold exitStepOne settleClose
  repeat' split
  all_goals rfl

/-- The exit fold behaves identically whatever the symbol's flag is. -/
lemma exitFold_flag_indep (inp : TickInputs) (l : List Trade) :
    ∀ (s : SymbolMem) (p : PortfolioMem) (evs : List Ev) (n : ℕ) (b : Bool),
    l.foldl (exitStepOne inp) ({ s with trading_enabled := b }, p, evs, n) =
      ({ (l.foldl (exitStepOne inp) (s, p, evs, n)).1 with
          trading_enabled := b },
       (l.foldl (exitStepOne inp) (s, p, evs, n)).2) := by
  induction l with
  | nil => intro s p evs n b; rfl
  | cons t rest ih =>
      intro s p evs n b
      simp only [List.foldl_cons]
      rw [exitStepOne_flag_indep]
      rcases hr : exitStepOne inp (s, p, evs, n) t with ⟨s', p', evs', n'⟩
      exact ih s' p' evs' n' b

/-- The exit step leaves both `trading_enabled` flags unchanged. -/
lemma exitStep_flags (inp : TickInputs) (n : ℕ) (s : SymbolMem)
    (p : PortfolioMem) :
    (exitStep inp n s p).1.trading_enabled = s.trading_enabled ∧
    (exitStep inp n s p).2.1.trading_enabled = p.trading_enabled :=
  exitFold_flags inp s.open_trades (s, p, [], n)

/-- The symbol drawdown check preserves an already-disabled flag. -/
lemma ddCheckSym_disabled (s : SymbolMem) (h : s.trading_enabled = false) :
    (ddCheckSym s).trading_enabled = false := by
  unfold ddCheckSym
  split
  · rfl
  · exact h

/-- The portfolio drawdown check preserves an already-disabled flag. -/
lemma ddCheckPf_disabled (p : PortfolioMem) (h : p.trading_enabled = false) :
    (ddCheckPf p).trading_enabled = false := by
  unfold ddCheckPf
  split
  · rfl
  · exact h

/-- C8: the kill-switch contract of `run2.py` — (i) when a scope's
`daily_pnl` has fallen to its drawdown limit times `day_start_equity` the
drawdown check disables that scope's `trading_enabled`; (ii) while either
flag is false the entry block admits nothing and changes nothing; (iii) the
exit loop evaluates the open positions identically whatever the symbol flag
is; (iv) across a whole tick on an unchanged calendar day a false flag stays
false (for the symbol scope and the portfolio scope); (v) the daily reset at
a calendar-day change — and only it — sets the flag back to true. -/
theorem c8_kill_switch (inp : TickInputs) (n : ℕ) (s : SymbolMem)
    (p : PortfolioMem) (b : Bool) (today : ℤ) :
    (s.daily_pnl ≤ SYMBOL_DRAWDOWN_LIMIT * s.day_start_equity →
      (ddCheckSym s).trading_enabled = false) ∧
    (p.daily_pnl ≤ PORTFOLIO_DRAWDOWN_LIMIT * p.day_start_equity →
      (ddCheckPf p).trading_enabled = false) ∧
    (s.trading_enabled = false →
      entryStep inp n s p =
        { sym := s, pf := p, events := [], total_open := n,
          skipRest := false }) ∧
    (p.trading_enabled = false →
      entryStep inp n s p =
        { sym := s, pf := p, events := [], total_open := n,
          skipRest := false }) ∧
    ((exitStep inp n { s with trading_enabled := b } p).2.2.1 =
      (exitStep inp n s p).2.2.1) ∧
    (inp.today = s.current_day → s.trading_enabled = false →
      (run2SymbolTick inp n s p).1.trading_enabled = false) ∧
    (inp.today = p.current_day → p.trading_enabled = false →
      (run2SymbolTick inp n s p).2.1.trading_enabled = false) ∧
    (today ≠ s.current_day → (dailyResetSym today s).trading_enabled = true) ∧
    (today ≠ p.current_day → (dailyResetPf today p).trading_enabled = true) := by
  refine ⟨?_, ?_, entryStep_sym_disabled inp n s p,
    entryStep_pf_disabled inp n s p, ?_, ?_, ?_, ?_, ?_⟩
  · intro h
    unfold ddCheckSym
    rw [if_pos h]
  · intro h
    unfold ddCheckPf
    rw [if_pos h]
  · unfold exitStep
    rw [show ({ s with trading_enabled := b } : SymbolMem).open_trades =
      s.open_trades from rfl]
    rw [exitFold_flag_indep]
  · intro hday hflag
    have hreset : dailyResetSym inp.today s = s := by
      unfold dailyResetSym
      rw [if_neg (by simp [hday])]
    have hdd : (ddCheckSym s).trading_enabled = false :=
      ddCheckSym_disabled s hflag
    have hentry := entryStep_sym_disabled inp n (ddCheckSym s)
      (ddCheckPf (dailyResetPf inp.today p)) hdd
    rcases hex : exitStep inp n (ddCheckSym s)
        (ddCheckPf (dailyResetPf inp.today p)) with ⟨s', p', evs, n'⟩
    have hfl := (exitStep_flags inp n (ddCheckSym s)
      (ddCheckPf (dailyResetPf inp.today p))).1
    rw [hex] at hfl
    simp only [run2SymbolTick, hreset, hentry, hex]
    show s'.trading_enabled = false
    exact hfl.trans hdd
  · intro hday hflag
    have hreset : dailyResetPf inp.today p = p := by
      unfold dailyResetPf
      rw [if_neg (by simp [hday])]
    have hdd : (ddCheckPf p).trading_enabled = false :=
      ddCheckPf_disabled p hflag
    have hentry := entryStep_pf_disabled inp n
      (ddCheckSym (dailyResetSym inp.today s)) (ddCheckPf p) hdd
    rcases hex : exitStep inp n (ddCheckSym (dailyResetSym inp.today s))
        (ddCheckPf p) with ⟨s', p', evs, n'⟩
    have hfl := (exitStep_flags inp n (ddCheckSym (dailyResetSym inp.today s))
      (ddCheckPf p)).2
    rw [hex] at hfl
    simp only [run2SymbolTick, hreset, hentry, hex]
    show p'.trading_enabled = false
    exact hfl.trans hdd
  · intro h
    unfold dailyResetSym
    rw [if_pos h]
  · intro h
    unfold dailyResetPf
    rw [if_pos h]

/-- C8 witness: the §8 drawdown scenario — `day_start_equity` 100,
`daily_pnl` −20 at the configured −20% limit disables the symbol flag; a
disabled flag blocks the entry block while the exit events are unchanged;
the flag survives a same-day tick and a day change re-enables it. -/
theorem c8_kill_switch_witness :
    ((-20 : ℚ) ≤ SYMBOL_DRAWDOWN_LIMIT * 100 ∧
      (ddCheckSym { c2Sym with daily_pnl := -20, day_start_equity := 100
        }).trading_enabled = false) ∧
    ((false = false) ∧
      entryStep c2Inp 1 { c2Sym with trading_enabled := false } c2Pf =
        { sym := { c2Sym with trading_enabled := false }, pf := c2Pf,
          events := [], total_open := 1, skipRest := false }) ∧
    ((1:ℤ) ≠ ({ c2Sym with trading_enabled := false } : SymbolMem).current_day ∧
      (dailyResetSym 1
        { c2Sym with trading_enabled := false }).trading_enabled = true) := by
  refine ⟨⟨by norm_num [SYMBOL_DRAWDOWN_LIMIT], ?_⟩, ⟨rfl, ?_⟩,
    ⟨by decide, ?_⟩⟩
  · exact (c8_kill_switch c2Inp 1
      { c2Sym with daily_pnl := -20, day_start_equity := 100 } c2Pf false 0).1
      (by norm_num [SYMBOL_DRAWDOWN_LIMIT, c2Sym])
  · exact (c8_kill_switch c2Inp 1 { c2Sym with trading_enabled := false }
      c2Pf false 0).2.2.1 rfl
  · exact (c8_kill_switch c2Inp 1 { c2Sym with trading_enabled := false }
      c2Pf false 1).2.2.2.2.2.2.2.1 (by decide)

/-- Removing the first occurrence of a present trade removes exactly its
margin from the summed margins. -/
lemma sum_map_erase (l : List Trade) (t : Trade) (h : t ∈ l) :
    ((l.erase t).map Trade.margin_used).sum =
      (l.map Trade.margin_used).sum - t.margin_used := by
  induction l with
  | nil => simp at h
  | cons a rest ih =>
      rcases eq_or_ne a t with rfl | hne
      · rw [List.erase_cons_head]
        simp only [List.map_cons, List.sum_cons]
        ring
      · have ht : t ∈ rest := by
          rcases List.mem_cons.mp h with rfl | ht
          · exact absurd rfl hne
          · exact ht
        rw [List.erase_cons_tail (by simp [hne])]
        simp only [List.map_cons, List.sum_cons, ih ht]
        ring

/-- The entry block either leaves the symbol and portfolio untouched, or
appends exactly one trade while growing both `margin_used` pools by that
trade's margin and shrinking both available pools by it. -/
lemma entryStep_cases (inp : TickInputs) (n : ℕ) (s : SymbolMem)
    (p : PortfolioMem) :
    ((entryStep inp n s p).sym = s ∧ (entryStep inp n s p).pf = p) ∨
    (∃ t : Trade,
      (entryStep inp n s p).sym =
        { s with
            open_trades := s.open_trades ++ [t]
            margin_used := s.margin_used + t.margin_used
            available_margin := s.available_margin - t.margin_used } ∧
      (entryStep inp n s p).pf =
        { p with
            margin_used := p.margin_used + t.margin_used
            available_margin := p.available_margin - t.margin_used }) := by
  unfold entryStep
  dsimp only
  repeat' split
  all_goals first
    | exact Or.inl ⟨rfl, rfl⟩
    | exact Or.inr ⟨_, rfl, rfl⟩

/-- The daily reset changes no margin field and no open-trade list. -/
lemma dailyResetSym_margin (today : ℤ) (s : SymbolMem) :
    (dailyResetSym today s).margin_used = s.margin_used ∧
    (dailyResetSym today s).open_trades = s.open_trades := by
  unfold dailyResetSym
  split
  · exact ⟨rfl, rfl⟩
  · exact ⟨rfl, rfl⟩

/-- The portfolio daily reset changes no margin field. -/
lemma dailyResetPf_margin (today : ℤ) (p : PortfolioMem) :
    (dailyResetPf today p).margin_used = p.margin_used := by
  unfold dailyResetPf
  split
  · rfl
  · rfl

/-- Counting elements of the tail never exceeds counting in the whole. -/
lemma count_le_cons (u t : Trade) (rest : List Trade) :
    rest.count u ≤ (t :: rest).count u := by
  rw [List.count_cons]
  exact Nat.le_add_right _ _

/-- Fold invariant of the exit loop: the symbol margin equality is
preserved, the portfolio margin moves in lockstep with the symbol margin,
and every still-to-visit trade remains present (with multiplicity) in the
open list. -/
lemma exitFold_inv (inp : TickInputs) (l : List Trade) :
    ∀ (s : SymbolMem) (p : PortfolioMem) (evs : List Ev) (n : ℕ),
    symInv s →
    (∀ u : Trade, l.count u ≤ s.open_trades.count u) →
    symInv (l.foldl (exitStepOne inp) (s, p, evs, n)).1 ∧
    (l.foldl (exitStepOne inp) (s, p, evs, n)).2.1.margin_used -
        p.margin_used =
      (l.foldl (exitStepOne inp) (s, p, evs, n)).1.margin_used -
        s.margin_used := by
  induction l with
  | nil =>
      intro s p evs n hs _
      exact ⟨hs, by simp⟩
  | cons t rest ih =>
      intro s p evs n hs hcount
      simp only [List.foldl_cons]
      by_cases h1 : inp.now < t.target_exit_time
      · rw [show exitStepOne inp (s, p, evs, n) t = (s, p, evs, n) from by
          unfold exitStepOne; rw [if_pos h1]]
        exact ih s p evs n hs (fun u => le_trans (count_le_cons u t rest)
          (hcount u))
      · cases hep : inp.exit_price with
        | none =>
            rw [show exitStepOne inp (s, p, evs, n) t = (s, p, evs, n) from by
              unfold exitStepOne; rw [if_neg h1, hep]]
            exact ih s p evs n hs (fun u => le_trans (count_le_cons u t rest)
              (hcount u))
        | some px =>
            by_cases h2 : px = 0
            · rw [show exitStepOne inp (s, p, evs, n) t = (s, p, evs, n) from by
                unfold exitStepOne; rw [if_neg h1, hep]; dsimp only
                rw [if_pos h2]]
              exact ih s p evs n hs (fun u => le_trans (count_le_cons u t rest)
                (hcount u))
            · rw [show exitStepOne inp (s, p, evs, n) t =
                  ((settleClose px t s p).1, (settleClose px t s p).2,
                    evs ++ [Ev.close t], n - 1) from by
                unfold exitStepOne; rw [if_neg h1, hep]; dsimp only
                rw [if_neg h2]]
              have htpos : 0 < s.open_trades.count t := by
                have := hcount t
                rw [List.count_cons_self] at this
                omega
              have htmem : t ∈ s.open_trades :=
                List.count_pos_iff.mp htpos
              have hs' : symInv (settleClose px t s p).1 := by
                unfold symInv settleClose
                dsimp only
                rw [sum_map_erase _ _ htmem, ← hs]
              have hcount' : ∀ u : Trade,
                  rest.count u ≤ (settleClose px t s p).1.open_trades.count u := by
                intro u
                show rest.count u ≤ (s.open_trades.erase t).count u
                by_cases hu : u = t
                · subst hu
                  have hc := hcount u
                  rw [List.count_cons_self] at hc
                  rw [List.count_erase_self]
                  omega
                · have hc := hcount u
                  rw [List.count_cons_of_ne hu] at hc
                  rw [List.count_erase_of_ne hu]
                  exact hc
              obtain ⟨ha, hb⟩ := ih (settleClose px t s p).1
                (settleClose px t s p).2 (evs ++ [Ev.close t]) (n - 1) hs'
                hcount'
              refine ⟨ha, ?_⟩
              have hpm : (settleClose px t s p).2.margin_used =
                  p.margin_used - t.margin_used := rfl
              have hsm : (settleClose px t s p).1.margin_used =
                  s.margin_used - t.margin_used := rfl
              rw [hpm, hsm] at hb
              linarith [hb]

/-- The exit step preserves the symbol margin equality and moves the
portfolio margin in lockstep with the symbol margin. -/
lemma exitStep_inv (inp : TickInputs) (n : ℕ) (s : SymbolMem)
    (p : PortfolioMem) (hs : symInv s) :
    symInv (exitStep inp n s p).1 ∧
    (exitStep inp n s p).2.1.margin_used - p.margin_used =
      (exitStep inp n s p).1.margin_used - s.margin_used :=
  exitFold_inv inp s.open_trades s p [] n hs (fun _ => le_refl _)

/-- Unfolding `ledgerSet` over a cons cell. -/
lemma ledgerSet_cons (a : String × SymbolMem) (rest : List (String × SymbolMem))
    (k : String) (s' : SymbolMem) :
    ledgerSet (a :: rest) k s' =
      (if a.1 = k then (a.1, s') else a) :: ledgerSet rest k s' := rfl

/-- Assigning an absent key leaves the ledger unchanged. -/
lemma ledgerSet_not_mem (L : List (String × SymbolMem)) (k : String)
    (s' : SymbolMem) (h : k ∉ L.map Prod.fst) : ledgerSet L k s' = L := by
  induction L with
  | nil => rfl
  | cons a rest ih =>
      simp only [List.map_cons, List.mem_cons, not_or] at h
      rw [ledgerSet_cons, if_neg (fun hh : a.1 = k => h.1 hh.symm),
        ih h.2]

/-- Assigning the key found by `find?` replaces that entry's margin in the
summed margins, provided the keys are unique. -/
lemma ledgerSet_sum (L : List (String × SymbolMem)) (k : String)
    (s' : SymbolMem) (kv0 : String × SymbolMem)
    (hnd : (L.map Prod.fst).Nodup)
    (hfind : L.find? (fun kv => kv.1 = k) = some kv0) :
    ((ledgerSet L k s').map (fun kv => kv.2.margin_used)).sum =
      (L.map (fun kv => kv.2.margin_used)).sum - kv0.2.margin_used +
        s'.margin_used := by
  induction L with
  | nil => simp at hfind
  | cons a rest ih =>
      rw [List.map_cons, List.nodup_cons] at hnd
      by_cases hak : a.1 = k
      · have hkv0 : kv0 = a := by
          rw [List.find?_cons_of_pos _ (by simp [hak])] at hfind
          exact (Option.some.injEq _ _ ▸ hfind).symm
        subst hkv0
        have hnotin : k ∉ rest.map Prod.fst := hak ▸ hnd.1
        rw [ledgerSet_cons, if_pos hak, ledgerSet_not_mem rest k s' hnotin]
        simp only [List.map_cons, List.sum_cons]
        ring
      · have hfind' : rest.find? (fun kv => kv.1 = k) = some kv0 := by
          rw [List.find?_cons_of_neg _ (by simp [hak])] at hfind
          exact hfind
        rw [ledgerSet_cons, if_neg hak]
        simp only [List.map_cons, List.sum_cons]
        rw [ih hnd.2 hfind']
        ring

/-- Assignment of a state satisfying the symbol invariant keeps every entry
of the ledger satisfying it. -/
lemma ledgerSet_symInv (L : List (String × SymbolMem)) (k : String)
    (s' : SymbolMem) (hall : ∀ kv ∈ L, symInv kv.2) (hs' : symInv s') :
    ∀ kv ∈ ledgerSet L k s', symInv kv.2 := by
  intro kv hkv
  rcases List.mem_map.mp hkv with ⟨kv1, hkv1, heq⟩
  by_cases h : kv1.1 = k
  · rw [if_pos h] at heq
    rw [← heq]
    exact hs'
  · rw [if_neg h] at heq
    rw [← heq]
    exact hall kv1 hkv1

/-- C1 counterexample: a ledger satisfying both §3 margin equalities is
saved and restored on the same calendar day with one open position; the
startup restore of `run2.main` (lines 147-154) resets the symbol's
`margin_used` to 0 while the restored position still carries margin 75, so
the restored ledger violates the symbol margin equality — startup restore
does not preserve the invariants. -/
theorem c1_startup_restore_breaks_invariant :
    ledgerInv [("cmt_ethusdt", c1Sym)] c1Pf ∧
    ¬ ledgerInv
        (startupRestore ["cmt_ethusdt"] 500 0
          (.valid (save_state [("cmt_ethusdt", c1Sym)] c1Pf 0))).1
        (startupRestore ["cmt_ethusdt"] 500 0
          (.valid (save_state [("cmt_ethusdt", c1Sym)] c1Pf 0))).2 := by
  constructor
  · constructor
    · intro kv hkv
      simp only [List.mem_singleton] at hkv
      subst hkv
      show c1Sym.margin_used = _
      norm_num [c1Sym, c1Trade, symInv]
    · show c1Pf.margin_used = _
      norm_num [c1Pf, c1Sym]
  · rintro ⟨h1, -⟩
    have hmem : ("cmt_ethusdt", initMarginSym (saveSymbol c1Sym)) ∈
        (startupRestore ["cmt_ethusdt"] 500 0
          (.valid (save_state [("cmt_ethusdt", c1Sym)] c1Pf 0))).1 := by
      simp [startupRestore, setup_state, load_state, save_state,
        savePortfolio, c1Pf]
    have := h1 _ hmem
    norm_num [symInv, initMarginSym, saveSymbol, c1Sym, c1Trade] at this

/-- C1 amended: the §3 margin equalities are preserved by entry admission,
exit settlement, and the daily rollover at the ledger level (for a ledger
with unique symbol keys); the startup restore establishes them only when no
open positions are restored, because `run2.main` re-initializes every
`margin_used` to 0 regardless of the restored open-trade lists. -/
theorem c1_margin_invariants (inp : TickInputs) (n : ℕ) (k : String)
    (L : List (String × SymbolMem)) (p : PortfolioMem) (today : ℤ)
    (hnd : (L.map Prod.fst).Nodup) (hinv : ledgerInv L p) :
    ledgerInv (ledgerEntry inp n k L p).1 (ledgerEntry inp n k L p).2 ∧
    ledgerInv (ledgerExit inp n k L p).1 (ledgerExit inp n k L p).2 ∧
    ledgerInv (ledgerRollover today k L p).1 (ledgerRollover today k L p).2 ∧
    (∀ (symbols : List String) (cap : ℚ) (file : SnapshotFile),
      (∀ kv ∈ (setup_state symbols cap today file).1, kv.2.open_trades = []) →
      ledgerInv (startupRestore symbols cap today file).1
        (startupRestore symbols cap today file).2) := by
  obtain ⟨hall, hsum⟩ := hinv
  refine ⟨?_, ?_, ?_, ?_⟩
  · unfold ledgerEntry
    cases hfind : L.find? (fun kv => kv.1 = k) with
    | none => exact ⟨hall, hsum⟩
    | some kv0 =>
        dsimp only
        have hkmem : kv0 ∈ L := List.mem_of_find?_eq_some hfind
        have hsyminv : symInv kv0.2 := hall kv0 hkmem
        rcases entryStep_cases inp n kv0.2 p with ⟨he1, he2⟩ | ⟨t, he1, he2⟩
        · constructor
          · refine ledgerSet_symInv L k _ hall ?_
            rw [he1]
            exact hsyminv
          · rw [he2]
            rw [ledgerSet_sum L k _ kv0 hnd hfind, he1]
            rw [hsum]
            ring
        · constructor
          · refine ledgerSet_symInv L k _ hall ?_
            rw [he1]
            show kv0.2.margin_used + t.margin_used =
              ((kv0.2.open_trades ++ [t]).map Trade.margin_used).sum
            rw [List.map_append, List.sum_append, ← hsyminv]
            simp
          · rw [he2]
            rw [ledgerSet_sum L k _ kv0 hnd hfind]
            rw [he1]
            show p.margin_used + t.margin_used =
              (L.map (fun kv => kv.2.margin_used)).sum - kv0.2.margin_used +
                (kv0.2.margin_used + t.margin_used)
            rw [hsum]
            ring
  · unfold ledgerExit
    cases hfind : L.find? (fun kv => kv.1 = k) with
    | none => exact ⟨hall, hsum⟩
    | some kv0 =>
        dsimp only
        have hkmem : kv0 ∈ L := List.mem_of_find?_eq_some hfind
        have hsyminv : symInv kv0.2 := hall kv0 hkmem
        obtain ⟨hinv', hdelta⟩ := exitStep_inv inp n kv0.2 p hsyminv
        constructor
        · exact ledgerSet_symInv L k _ hall hinv'
        · rw [ledgerSet_sum L k _ kv0 hnd hfind]
          linarith [hdelta, hsum]
  · unfold ledgerRollover
    cases hfind : L.find? (fun kv => kv.1 = k) with
    | none =>
        refine ⟨hall, ?_⟩
        rw [dailyResetPf_margin, hsum]
    | some kv0 =>
        dsimp only
        have hkmem : kv0 ∈ L := List.mem_of_find?_eq_some hfind
        have hsyminv : symInv kv0.2 := hall kv0 hkmem
        obtain ⟨hm, ho⟩ := dailyResetSym_margin today kv0.2
        constructor
        · refine ledgerSet_symInv L k _ hall ?_
          show (dailyResetSym today kv0.2).margin_used = _
          rw [hm, ho]
          exact hsyminv
        · rw [ledgerSet_sum L k _ kv0 hnd hfind, dailyResetPf_margin, hm,
            hsum]
          ring
  · intro symbols cap file hempty
    constructor
    · intro kv hkv
      rcases List.mem_map.mp hkv with ⟨kv1, hkv1, heq⟩
      rw [← heq]
      show (initMarginSym kv1.2).margin_used =
        ((initMarginSym kv1.2).open_trades.map Trade.margin_used).sum
      show (0:ℚ) = ((kv1.2.open_trades).map Trade.margin_used).sum
      rw [hempty kv1 hkv1]
      rfl
    · show (0:ℚ) = _
      symm
      apply List.sum_eq_zero
      intro x hx
      rcases List.mem_map.mp hx with ⟨kv, hkv, hxeq⟩
      rcases List.mem_map.mp hkv with ⟨kv1, _, heq⟩
      rw [← hxeq, ← heq]
      rfl

/-- C1 witness: the preservation theorem applied to a concrete one-symbol
ledger satisfying the invariants. -/
theorem c1_margin_invariants_witness :
    ((([("cmt_ethusdt", c1Sym)] : List (String × SymbolMem)).map
        Prod.fst).Nodup ∧ ledgerInv [("cmt_ethusdt", c1Sym)] c1Pf) ∧
    ledgerInv (ledgerEntry c2Inp 1 "cmt_ethusdt" [("cmt_ethusdt", c1Sym)]
        c1Pf).1
      (ledgerEntry c2Inp 1 "cmt_ethusdt" [("cmt_ethusdt", c1Sym)] c1Pf).2 := by
  have hnd : (([("cmt_ethusdt", c1Sym)] : List (String × SymbolMem)).map
      Prod.fst).Nodup := by simp
  have hinv : ledgerInv [("cmt_ethusdt", c1Sym)] c1Pf := by
    constructor
    · intro kv hkv
      simp only [List.mem_singleton] at hkv
      subst hkv
      show c1Sym.margin_used = _
      norm_num [c1Sym, c1Trade, symInv]
    · show c1Pf.margin_used = _
      norm_num [c1Pf, c1Sym]
  exact ⟨⟨hnd, hinv⟩,
    (c1_margin_invariants c2Inp 1 "cmt_ethusdt" [("cmt_ethusdt", c1Sym)]
      c1Pf 0 hnd hinv).1⟩

end Weex
